import Mathlib

/-!
Verification of the ChessMate physical move planner
(`src/backend/path_finder/coordinate_converter.py`,
`src/backend/path_finder/path_planner.py`,
`src/backend/path_finder/main.py`) against its specification.

The Python code is shallowly embedded: grid points are pairs of
integers, planner output is a list of primitive actions, the mutable
discard-pile tracking of `CoordinateConverter` becomes explicit state
passing, and fallible operations return `Option`.
-/

set_option maxHeartbeats 4000000

namespace ChessMate

/-- A grid point of the 17x19 physical grid (the `{"x": .., "y": ..}`
dicts of the Python code). -/
structure Pt where
  x : Int
  y : Int
deriving DecidableEq, Repr

/-- A primitive controller action.  In the Python code actions are the
strings `"X: {dx} Y: {dy}"`, `"raise"`, `"lower"`, `"home"`; the wire
encoding is recovered by `encodeAction`. -/
inductive Action where
  | move (dx dy : Int)
  | raiseCmd
  | lowerCmd
  | homeCmd
deriving DecidableEq, Repr

/-- Wire encoding of an action, mirroring the f-strings of
`path_planner.py` and the literal command strings. -/
def encodeAction : Action → String
  | .move dx dy => "X: " ++ toString dx ++ " Y: " ++ toString dy
  | .raiseCmd => "raise"
  | .lowerCmd => "lower"
  | .homeCmd => "home"

/-- `CoordinateConverter.files = 'abcdefgh'`. -/
def files : List Char := ['a', 'b', 'c', 'd', 'e', 'f', 'g', 'h']

/-- `CoordinateConverter.ranks = '12345678'`. -/
def ranks : List Char := ['1', '2', '3', '4', '5', '6', '7', '8']

/-- Index of a character in a character list (Python `str.index`,
with the preceding membership test folded into the `Option`). -/
def charIdx : List Char → Char → Option Nat
  | [], _ => none
  | c :: cs, d => if c = d then some 0 else (charIdx cs d).map (· + 1)

/-- `CoordinateConverter.chess_to_grid`.  Parses a two-character square
such as `"e4"`; `use_channel = true` yields the channel position
`(2*file, 2*rank+1)`, `use_channel = false` the square center
`(2*file+1, 2*rank+2)`.  An invalid square name (`ValueError` in
Python) becomes `none`. -/
def chess_to_grid (square : String) (use_channel : Bool) : Option Pt :=
  match square.data with
  | [fc, rc] =>
    match charIdx files fc.toLower, charIdx ranks rc with
    | some file_index, some rank_index =>
      if use_channel then
        some ⟨2 * (file_index : Int), 2 * (rank_index : Int) + 1⟩
      else
        some ⟨2 * (file_index : Int) + 1, 2 * (rank_index : Int) + 2⟩
    | _, _ => none
  | _ => none

/-- `CoordinateConverter.grid_to_chess`.  Python floor division `//` is
`Int.fdiv`.  Range failures (`ValueError` in Python) become `none`.
For `rank_index` in `[0,7]` the Python `str(rank_index + 1)` coincides
with indexing into `ranks`. -/
def grid_to_chess (x y : Int) : Option String :=
  if 0 ≤ x ∧ x ≤ 16 ∧ 0 ≤ y ∧ y ≤ 18 then
    let file_index := (x - 1).fdiv 2
    let rank_index := (y - 2).fdiv 2
    if 0 ≤ file_index ∧ file_index ≤ 7 ∧ 0 ≤ rank_index ∧ rank_index ≤ 7 then
      match files.get? file_index.toNat, ranks.get? rank_index.toNat with
      | some fc, some rc => some (String.mk [fc, rc])
      | _, _ => none
    else none
  else none

/-- `CoordinateConverter.get_home_position`: the fixed origin `(0,0)`. -/
def get_home_position : Pt := ⟨0, 0⟩

/-- The mutable discard-pile tracking fields of `CoordinateConverter`,
made explicit. -/
structure DiscardState where
  white_captured_pieces : List Int
  black_captured_pieces : List Int
deriving DecidableEq, Repr

/-- Python `max` over a nonempty list (the empty case is unreachable in
the source because it is guarded by `if not captured_list`). -/
def listMax : List Int → Int
  | [] => 0
  | a :: as => as.foldl max a

/-- `CoordinateConverter.get_next_discard_position`, with the mutation
of the captured-pieces lists returned as a new state. -/
def get_next_discard_position (is_white_capture : Bool) (st : DiscardState) :
    Pt × DiscardState :=
  let discard_y : Int := if is_white_capture then 18 else 0
  let captured_list :=
    if is_white_capture then st.black_captured_pieces else st.white_captured_pieces
  let next_x : Int :=
    match captured_list with
    | [] => 1
    | _ =>
      let nx := listMax captured_list + 2
      if nx > 15 then 1 else nx
  let newList := captured_list ++ [next_x]
  (⟨next_x, discard_y⟩,
    if is_white_capture then { st with black_captured_pieces := newList }
    else { st with white_captured_pieces := newList })

/-- Fin-indexed file character, `files[f]`. -/
def fileChar : Fin 8 → Char
  | 0 => 'a' | 1 => 'b' | 2 => 'c' | 3 => 'd'
  | 4 => 'e' | 5 => 'f' | 6 => 'g' | 7 => 'h'

/-- Fin-indexed rank character, `ranks[r]`. -/
def rankChar : Fin 8 → Char
  | 0 => '1' | 1 => '2' | 2 => '3' | 3 => '4'
  | 4 => '5' | 5 => '6' | 6 => '7' | 7 => '8'

/-- The algebraic name of the square with file index `f`
and rank index `r` (both 0-based); enumerates the 64 valid squares. -/
def sqStr (f r : Fin 8) : String := String.mk [fileChar f, rankChar r]

/-- The center grid point of the square with file index `f` and rank
index `r`: odd x in `[1,15]`, even y in `[2,16]`. -/
def centerOf (f r : Fin 8) : Pt := ⟨2 * (f : Int) + 1, 2 * (r : Int) + 2⟩

/-- `PathPlanner._plan_horizontal_edge_movement`.  Python `%` on a
positive modulus is `Int.emod`; the chained conditional expressions are
translated right-associated as Python parses them. -/
def plan_horizontal_edge_movement (from_pos to_pos : Pt) (_dx dy : Int) :
    List Action :=
  let channel_y0 : Int :=
    if from_pos.y % 2 = 0 ∧ dy ≥ 0 then from_pos.y + 1
    else if from_pos.y % 2 = 0 then from_pos.y - 1
    else from_pos.y
  let channel_y : Int :=
    if channel_y0 % 2 = 0 then (if dy ≥ 0 then channel_y0 + 1 else channel_y0 - 1)
    else channel_y0
  let channel_dy := channel_y - from_pos.y
  let cmds1 : List Action := if channel_dy ≠ 0 then [.move 0 channel_dy] else []
  let target_channel_x : Int := if to_pos.x % 2 = 1 then to_pos.x - 1 else to_pos.x
  let horizontal_dx := target_channel_x - from_pos.x
  let cmds2 : List Action := if horizontal_dx ≠ 0 then [.move horizontal_dx 0] else []
  let target_channel_y : Int := if to_pos.y % 2 = 0 then to_pos.y - 1 else to_pos.y
  let vertical_dy := target_channel_y - channel_y
  let cmds3 : List Action := if vertical_dy ≠ 0 then [.move 0 vertical_dy] else []
  cmds1 ++ cmds2 ++ cmds3

/-- `PathPlanner._plan_vertical_edge_movement`. -/
def plan_vertical_edge_movement (from_pos to_pos : Pt) (dx _dy : Int) :
    List Action :=
  let channel_x0 : Int :=
    if from_pos.x % 2 = 1 ∧ dx ≥ 0 then from_pos.x + 1
    else if from_pos.x % 2 = 1 then from_pos.x - 1
    else from_pos.x
  let channel_x : Int :=
    if channel_x0 % 2 = 1 then (if dx ≥ 0 then channel_x0 + 1 else channel_x0 - 1)
    else channel_x0
  let channel_dx := channel_x - from_pos.x
  let cmds1 : List Action := if channel_dx ≠ 0 then [.move channel_dx 0] else []
  let target_channel_y : Int := if to_pos.y % 2 = 0 then to_pos.y - 1 else to_pos.y
  let vertical_dy := target_channel_y - from_pos.y
  let cmds2 : List Action := if vertical_dy ≠ 0 then [.move 0 vertical_dy] else []
  let target_channel_x : Int := if to_pos.x % 2 = 1 then to_pos.x - 1 else to_pos.x
  let horizontal_dx := target_channel_x - channel_x
  let cmds3 : List Action := if horizontal_dx ≠ 0 then [.move horizontal_dx 0] else []
  cmds1 ++ cmds2 ++ cmds3

/-- `PathPlanner._plan_edge_movement`: direct point-to-point travel when
not carrying; otherwise decompose along the axis of greater absolute
displacement (`abs(dx) >= abs(dy)` favors horizontal). -/
def plan_edge_movement (from_pos to_pos : Pt) (carrying_piece : Bool) :
    List Action :=
  let dx := to_pos.x - from_pos.x
  let dy := to_pos.y - from_pos.y
  if carrying_piece = false then
    if dx ≠ 0 ∨ dy ≠ 0 then [.move dx dy] else []
  else
    if dy.natAbs ≤ dx.natAbs then
      plan_horizontal_edge_movement from_pos to_pos dx dy
    else
      plan_vertical_edge_movement from_pos to_pos dx dy

/-- `PathPlanner._plan_discard_movement`.  The `discard_pos` argument
is only read through its x-coordinate, exactly as in the source. -/
def plan_discard_movement (from_pos discard_pos : Pt) : List Action :=
  let channel_y : Int := if from_pos.y % 2 = 0 then from_pos.y - 1 else from_pos.y
  let channel_dy := channel_y - from_pos.y
  let cmds1 : List Action := if channel_dy ≠ 0 then [.move 0 channel_dy] else []
  let dx := discard_pos.x - from_pos.x
  let cmds2 : List Action := if dx ≠ 0 then [.move dx 0] else []
  let target_channel_y : Int := 1
  let final_dy := target_channel_y - channel_y
  let cmds3 : List Action := if final_dy ≠ 0 then [.move 0 final_dy] else []
  cmds1 ++ cmds2 ++ cmds3

/-- `PathPlanner._is_castling_move`: membership of the (from,to) pair
in the four fixed king pairs. -/
def is_castling_move (from_square to_square : String) : Bool :=
  decide ((from_square, to_square) ∈
    ([("e1", "g1"), ("e1", "c1"), ("e8", "g8"), ("e8", "c8")] :
      List (String × String)))

/-- `PathPlanner._plan_castling_path`.  The rook squares are chosen from
the king's destination and the `is_white_move` flag exactly as in the
source; square-conversion failure propagates as `none` (for the four
real castling pairs it never occurs). -/
def plan_castling_path (king_from king_to : String) (is_white_move : Bool) :
    Option (List Action) :=
  let rook_from : String :=
    if king_to = "g1" ∨ king_to = "g8" then (if is_white_move then "h1" else "h8")
    else (if is_white_move then "a1" else "a8")
  let rook_to : String :=
    if king_to = "g1" ∨ king_to = "g8" then (if is_white_move then "f1" else "f8")
    else (if is_white_move then "d1" else "d8")
  match chess_to_grid king_from false, chess_to_grid king_to false,
      chess_to_grid rook_from false, chess_to_grid rook_to false with
  | some kf, some kt, some rf, some rt =>
    some ([.lowerCmd, .homeCmd]
      ++ plan_edge_movement get_home_position kf false ++ [.raiseCmd]
      ++ plan_edge_movement kf kt true ++ [.move 1 1, .lowerCmd, .homeCmd]
      ++ plan_edge_movement get_home_position rf false ++ [.raiseCmd]
      ++ plan_edge_movement rf rt true ++ [.move 1 1, .lowerCmd])
  | _, _, _, _ => none

/-- `PathPlanner.plan_path`.  The capture branch uses the hardcoded
`discard_pos = {"x": 1, "y": 0}` of the source and never consults
`get_next_discard_position`.  The unused `board_state` parameter of the
source is omitted.  Invalid squares (`ValueError` in Python) become
`none`. -/
def plan_path (from_square to_square : String) (is_capture : Bool)
    (is_white_move : Bool) : Option (List Action) :=
  if is_castling_move from_square to_square then
    plan_castling_path from_square to_square is_white_move
  else
    match chess_to_grid from_square false, chess_to_grid to_square false with
    | some from_coords, some to_coords =>
      some ([.lowerCmd, .homeCmd]
        ++ (if is_capture then
              plan_edge_movement get_home_position to_coords false ++ [.raiseCmd]
              ++ plan_discard_movement to_coords ⟨1, 0⟩
              ++ [.move 0 (-1), .lowerCmd, .homeCmd]
            else [])
        ++ plan_edge_movement get_home_position from_coords false ++ [.raiseCmd]
        ++ plan_edge_movement from_coords to_coords true
        ++ [.move 1 1, .lowerCmd])
    | _, _ => none

/-- The planning portion of `main.execute_chess_move` for a
non-promotion move: an `is_castling` flag is computed (explicit flag or
auto-detection) but never consulted — `plan_path` is invoked without it
and with `is_white_move = True`, exactly as in the source. -/
def exec_plan (from_square to_square : String) (is_capture : Bool)
    (is_castling : Bool) : Option (List Action) :=
  let _auto_detected := is_castling || is_castling_move from_square to_square
  plan_path from_square to_square is_capture true

/-- One action's effect on the gripper position: relative displacement,
`home` returns to the origin, `raise`/`lower` do not move. -/
def stepPos (p : Pt) : Action → Pt
  | .move dx dy => ⟨p.x + dx, p.y + dy⟩
  | .homeCmd => get_home_position
  | _ => p

/-- Final gripper position after executing a list of actions. -/
def applyActions (p : Pt) (L : List Action) : Pt := L.foldl stepPos p

/-- Observable event of a choreography: a `raise`, `lower` or `home`
together with the gripper position at which it happens. -/
inductive Ev where
  | raiseAt (p : Pt)
  | lowerAt (p : Pt)
  | homeEv
deriving DecidableEq, Repr

/-- Event sequence of an action list executed from position `p`. -/
def trace (p : Pt) : List Action → List Ev
  | [] => []
  | .raiseCmd :: as => .raiseAt p :: trace p as
  | .lowerCmd :: as => .lowerAt p :: trace p as
  | .homeCmd :: as => .homeEv :: trace get_home_position as
  | .move dx dy :: as => trace ⟨p.x + dx, p.y + dy⟩ as

/-- All lattice points the gripper passes through (endpoints included)
while executing a single displacement from `p`.  Axis-aligned legs
cross every intermediate lattice point; a diagonal unit step such as
the fixed `(1,1)` settle touches no lattice point strictly between its
endpoints. -/
def segPoints (p : Pt) (dx dy : Int) : List Pt :=
  if dx = 0 then
    (List.range (dy.natAbs + 1)).map fun k => ⟨p.x, p.y + dy.sign * (k : Int)⟩
  else if dy = 0 then
    (List.range (dx.natAbs + 1)).map fun k => ⟨p.x + dx.sign * (k : Int), p.y⟩
  else [p, ⟨p.x + dx, p.y + dy⟩]

/-- One carry cycle of a choreography: the position at the `raise`, the
position at the matching `lower`, and every lattice point traversed in
between while the piece is held. -/
structure Carry where
  lift : Pt
  settle : Pt
  pts : List Pt
deriving DecidableEq, Repr

/-- Walk an action list from position `p`, collecting the carry cycles
(the displacement legs between each `raise` and the following
`lower`). -/
def collectCarries (p : Pt) (cur : Option (Pt × List Pt)) :
    List Action → List Carry
  | [] => []
  | a :: as =>
    match a, cur with
    | .raiseCmd, none => collectCarries p (some (p, [p])) as
    | .raiseCmd, some c => collectCarries p (some c) as
    | .lowerCmd, some (l, pts) =>
      { lift := l, settle := p, pts := pts } :: collectCarries p none as
    | .lowerCmd, none => collectCarries p none as
    | .homeCmd, _ => collectCarries get_home_position cur as
    | .move dx dy, none => collectCarries ⟨p.x + dx, p.y + dy⟩ none as
    | .move dx dy, some (l, pts) =>
      collectCarries ⟨p.x + dx, p.y + dy⟩
        (some (l, pts ++ segPoints p dx dy)) as

/-- A square-center grid point in the sense of claim C1: x odd, y even
with `2 ≤ y ≤ 16`. -/
def isCenterPt (p : Pt) : Bool :=
  p.x % 2 == 1 && p.y % 2 == 0 && decide (2 ≤ p.y) && decide (p.y ≤ 16)

/-- A choreography is carry-safe when no carry cycle traverses a
square-center point other than its own lift and settle points. -/
def carrySafeL (L : List Action) : Bool :=
  (collectCarries get_home_position none L).all fun c =>
    c.pts.all fun p => !isCenterPt p || p == c.lift || p == c.settle

/-- A relative displacement along exactly one axis (nonzero on exactly
one coordinate); `raise`/`lower`/`home` do not qualify. -/
def isAxisMove : Action → Bool
  | .move dx dy => decide (dx = 0) != decide (dy = 0)
  | _ => false

/-- Number of `raise` actions in a choreography. -/
def countRaise (L : List Action) : Nat := L.count Action.raiseCmd

/-- Discard-pile state after `n` successive white-capture allocations
starting from an empty pile. -/
def discard_state_after : Nat → DiscardState
  | 0 => ⟨[], []⟩
  | n + 1 => (get_next_discard_position true (discard_state_after n)).2

/-- The x-coordinate returned by the (n+1)-st successive white-capture
allocation (0-indexed). -/
def discard_x_at (n : Nat) : Int :=
  (get_next_discard_position true (discard_state_after n)).1.x

/-- The Arduino-response marker `"Done"` of `send_command`, as characters. -/
def doneMark : List Char := ['D', 'o', 'n', 'e']

/-- The Arduino-response marker `"Error"` of `send_command`, as characters. -/
def errorMark : List Char := ['E', 'r', 'r', 'o', 'r']

/-- Python `str.startswith`, on explicit character lists. -/
def leadsWith : List Char → List Char → Bool
  | [], _ => true
  | _ :: _, [] => false
  | p :: ps, c :: cs => decide (p = c) && leadsWith ps cs

/-- The acknowledgement-reading loop of `send_command` over one
command's response lines: skip lines until one begins with `Done`
(success) or `Error` (failure); `none` models the loop never
terminating because no such line arrives. -/
def scanAcks : List String → Option Bool
  | [] => none
  | r :: rs =>
    if leadsWith doneMark r.data = true then some true
    else if leadsWith errorMark r.data = true then some false
    else scanAcks rs

/-- The live-connection command loop of `execute_chess_move`: each
command is written and acknowledged in turn (`conn` lists the response
lines each write elicits); the result pairs the overall outcome with
the commands actually transmitted.  An `Error` acknowledgement stops
the loop; `none` models an unacknowledged command hanging forever. -/
def runLive : List (List String) → List String → List String →
    Option (Bool × List String)
  | _, [], sent => some (true, sent.reverse)
  | [], _ :: _, _ => none
  | r :: rss, c :: cs, sent =>
    match scanAcks r with
    | some true => runLive rss cs (c :: sent)
    | some false => some (false, (c :: sent).reverse)
    | none => none

/-- `send_command` in simulation mode returns `True` for every command,
so the command loop of `execute_chess_move` runs to completion. -/
def simRun : List String → Bool
  | [] => true
  | _ :: cs => simRun cs

/-- The command loop of `execute_chess_move` over an optional serial
connection: with no connection every command is simulated (nothing is
transmitted); with a live connection commands go through `runLive`. -/
def executeMove (conn : Option (List (List String))) (cmds : List String) :
    Option (Bool × List String) :=
  match conn with
  | none => some (simRun cmds, [])
  | some rss => runLive rss cmds []

/-- The plan `plan_path` produces for the plain move e2 to e4 (used as
a concrete executed choreography). -/
def e2e4Plan : List Action :=
  [.lowerCmd, .homeCmd, .move 9 4, .raiseCmd, .move 1 0, .move 0 3,
   .move (-2) 0, .move 1 1, .lowerCmd]

/-- Whether an action is a relative displacement. -/
def isMoveB : Action → Bool
  | .move _ _ => true
  | _ => false

/-- All lattice points traversed by the displacement actions of a list,
tracking the gripper position through every action. -/
def legsPoints (p : Pt) : List Action → List Pt
  | [] => []
  | .move dx dy :: as => segPoints p dx dy ++ legsPoints ⟨p.x + dx, p.y + dy⟩ as
  | a :: as => legsPoints (stepPos p a) as

/-- The action list `plan_path` builds for a plain (non-capture,
non-castling) move between centers `c1` and `c2`, with the list
appends normalized. -/
def plainPlan (c1 c2 : Pt) : List Action :=
  .lowerCmd :: .homeCmd ::
    (plan_edge_movement get_home_position c1 false
      ++ (.raiseCmd :: (plan_edge_movement c1 c2 true
        ++ [.move 1 1, .lowerCmd])))

/-- The action list `plan_path` builds for a non-castling capture from
center `c1` to center `c2`, with the list appends normalized. -/
def capturePlan (c1 c2 : Pt) : List Action :=
  .lowerCmd :: .homeCmd ::
    (plan_edge_movement get_home_position c2 false
      ++ (.raiseCmd :: (plan_discard_movement c2 ⟨1, 0⟩
        ++ (.move 0 (-1) :: .lowerCmd :: .homeCmd ::
          (plan_edge_movement get_home_position c1 false
            ++ (.raiseCmd :: (plan_edge_movement c1 c2 true
              ++ [.move 1 1, .lowerCmd])))))))

theorem applyActions_nil (p : Pt) : applyActions p [] = p := rfl

theorem applyActions_cons (p : Pt) (a : Action) (as : List Action) :
    applyActions p (a :: as) = applyActions (stepPos p a) as := rfl

theorem applyActions_append (p : Pt) (L M : List Action) :
    applyActions p (L ++ M) = applyActions (applyActions p L) M :=
  List.foldl_append _ _ _ _

theorem trace_moves_append (M : List Action) (hM : M.all isMoveB = true)
    (p : Pt) (rest : List Action) :
    trace p (M ++ rest) = trace (applyActions p M) rest := by
  induction M generalizing p with
  | nil => rfl
  | cons a as ih =>
    simp only [List.all_cons, Bool.and_eq_true] at hM
    cases a with
    | move dx dy =>
      show trace p (.move dx dy :: (as ++ rest)) = _
      rw [show trace p (.move dx dy :: (as ++ rest))
            = trace ⟨p.x + dx, p.y + dy⟩ (as ++ rest) from rfl,
        ih hM.2]
      rfl
    | raiseCmd => simp [isMoveB] at hM
    | lowerCmd => simp [isMoveB] at hM
    | homeCmd => simp [isMoveB] at hM

theorem legsPoints_append (p : Pt) (L M : List Action) :
    legsPoints p (L ++ M)
      = legsPoints p L ++ legsPoints (applyActions p L) M := by
  induction L generalizing p with
  | nil => rfl
  | cons a as ih =>
    cases a with
    | move dx dy =>
      show segPoints p dx dy ++ legsPoints ⟨p.x + dx, p.y + dy⟩ (as ++ M) = _
      rw [ih]
      simp [legsPoints, applyActions_cons, stepPos, List.append_assoc]
    | raiseCmd => simpa [legsPoints, applyActions_cons, stepPos] using ih p
    | lowerCmd => simpa [legsPoints, applyActions_cons, stepPos] using ih p
    | homeCmd =>
      simpa [legsPoints, applyActions_cons, stepPos]
        using ih get_home_position

theorem collectCarries_moves_open (M : List Action) (hM : M.all isMoveB = true)
    (p l : Pt) (pts : List Pt) (rest : List Action) :
    collectCarries p (some (l, pts)) (M ++ rest)
      = collectCarries (applyActions p M)
          (some (l, pts ++ legsPoints p M)) rest := by
  induction M generalizing p pts with
  | nil => simp [legsPoints, applyActions_nil]
  | cons a as ih =>
    simp only [List.all_cons, Bool.and_eq_true] at hM
    cases a with
    | move dx dy =>
      show collectCarries ⟨p.x + dx, p.y + dy⟩
          (some (l, pts ++ segPoints p dx dy)) (as ++ rest) = _
      rw [ih hM.2]
      simp [legsPoints, applyActions_cons, stepPos, List.append_assoc]
    | raiseCmd => simp [isMoveB] at hM
    | lowerCmd => simp [isMoveB] at hM
    | homeCmd => simp [isMoveB] at hM

theorem collectCarries_moves_none (M : List Action) (hM : M.all isMoveB = true)
    (p : Pt) (rest : List Action) :
    collectCarries p none (M ++ rest)
      = collectCarries (applyActions p M) none rest := by
  induction M generalizing p with
  | nil => rfl
  | cons a as ih =>
    simp only [List.all_cons, Bool.and_eq_true] at hM
    cases a with
    | move dx dy =>
      show collectCarries ⟨p.x + dx, p.y + dy⟩ none (as ++ rest) = _
      rw [ih hM.2]
      rfl
    | raiseCmd => simp [isMoveB] at hM
    | lowerCmd => simp [isMoveB] at hM
    | homeCmd => simp [isMoveB] at hM

theorem mem_segPoints_vert (p : Pt) (dy : Int) (q : Pt)
    (hq : q ∈ segPoints p 0 dy) : q.x = p.x := by
  unfold segPoints at hq
  rw [if_pos rfl] at hq
  simp only [List.mem_map, List.mem_range] at hq
  obtain ⟨k, _, rfl⟩ := hq
  rfl

theorem mem_segPoints_horiz (p : Pt) (dx : Int) (q : Pt)
    (hq : q ∈ segPoints p dx 0) : q.y = p.y := by
  by_cases hdx : dx = 0
  · subst hdx
    unfold segPoints at hq
    rw [if_pos rfl] at hq
    simp only [List.mem_map, List.mem_range] at hq
    obtain ⟨k, _, rfl⟩ := hq
    simp
  · unfold segPoints at hq
    rw [if_neg hdx, if_pos rfl] at hq
    simp only [List.mem_map, List.mem_range] at hq
    obtain ⟨k, _, rfl⟩ := hq
    rfl

theorem segPoints_unit_v (p : Pt) (d : Int) (hd : d = 1 ∨ d = -1) :
    segPoints p 0 d = [p, ⟨p.x, p.y + d⟩] := by
  rcases hd with rfl | rfl <;>
    simp [segPoints, List.range_succ]

theorem segPoints_unit_h (p : Pt) (d : Int) (hd : d = 1 ∨ d = -1) :
    segPoints p d 0 = [p, ⟨p.x + d, p.y⟩] := by
  rcases hd with rfl | rfl <;>
    simp [segPoints, List.range_succ]

theorem segPoints_diag (p : Pt) (dx dy : Int) (hdx : dx ≠ 0) (hdy : dy ≠ 0) :
    segPoints p dx dy = [p, ⟨p.x + dx, p.y + dy⟩] := by
  simp [segPoints, hdx, hdy]

theorem not_center_of_y_odd (q : Pt) (h : q.y % 2 = 1) :
    isCenterPt q = false := by
  simp [isCenterPt, h]

theorem not_center_of_x_even (q : Pt) (h : q.x % 2 = 0) :
    isCenterPt q = false := by
  simp [isCenterPt, h]

theorem seg_v_safe (p : Pt) (dy : Int) (hx : p.x % 2 = 0) :
    ∀ q ∈ segPoints p 0 dy, isCenterPt q = false := by
  intro q hq
  have := mem_segPoints_vert p dy q hq
  exact not_center_of_x_even q (by omega)

theorem seg_h_safe (p : Pt) (dx : Int) (hy : p.y % 2 = 1) :
    ∀ q ∈ segPoints p dx 0, isCenterPt q = false := by
  intro q hq
  have := mem_segPoints_horiz p dx q hq
  exact not_center_of_y_odd q (by omega)

theorem seg_unit_v_safe (p : Pt) (d : Int) (hd : d = 1 ∨ d = -1)
    (hy : p.y % 2 = 0) :
    ∀ q ∈ segPoints p 0 d, q = p ∨ isCenterPt q = false := by
  intro q hq
  rw [segPoints_unit_v p d hd] at hq
  rcases List.mem_pair.mp hq with rfl | rfl
  · exact Or.inl rfl
  · refine Or.inr (not_center_of_y_odd _ ?_)
    dsimp only
    rcases hd with rfl | rfl <;> omega

theorem seg_unit_h_safe (p : Pt) (d : Int) (hd : d = 1 ∨ d = -1)
    (hx : p.x % 2 = 1) :
    ∀ q ∈ segPoints p d 0, q = p ∨ isCenterPt q = false := by
  intro q hq
  rw [segPoints_unit_h p d hd] at hq
  rcases List.mem_pair.mp hq with rfl | rfl
  · exact Or.inl rfl
  · refine Or.inr (not_center_of_x_even _ ?_)
    dsimp only
    rcases hd with rfl | rfl <;> omega

theorem opt_vleg_mem (p : Pt) (d : Int) (rest : List Action) (q : Pt)
    (hq : q ∈ legsPoints p
      ((if d ≠ 0 then [Action.move 0 d] else []) ++ rest)) :
    q ∈ segPoints p 0 d ∨ q ∈ legsPoints ⟨p.x, p.y + d⟩ rest := by
  by_cases h : d ≠ 0
  · rw [if_pos h] at hq
    rw [List.singleton_append, show legsPoints p (Action.move 0 d :: rest)
        = segPoints p 0 d ++ legsPoints ⟨p.x + 0, p.y + d⟩ rest from rfl,
      show (⟨p.x + 0, p.y + d⟩ : Pt) = ⟨p.x, p.y + d⟩ by simp] at hq
    exact List.mem_append.mp hq
  · rw [if_neg h] at hq
    push_neg at h
    subst h
    rw [show (⟨p.x, p.y + 0⟩ : Pt) = p by simp]
    exact Or.inr hq

theorem opt_hleg_mem (p : Pt) (d : Int) (rest : List Action) (q : Pt)
    (hq : q ∈ legsPoints p
      ((if d ≠ 0 then [Action.move d 0] else []) ++ rest)) :
    q ∈ segPoints p d 0 ∨ q ∈ legsPoints ⟨p.x + d, p.y⟩ rest := by
  by_cases h : d ≠ 0
  · rw [if_pos h] at hq
    rw [List.singleton_append, show legsPoints p (Action.move d 0 :: rest)
        = segPoints p d 0 ++ legsPoints ⟨p.x + d, p.y + 0⟩ rest from rfl,
      show (⟨p.x + d, p.y + 0⟩ : Pt) = ⟨p.x + d, p.y⟩ by simp] at hq
    exact List.mem_append.mp hq
  · rw [if_neg h] at hq
    push_neg at h
    subst h
    rw [show (⟨p.x + 0, p.y⟩ : Pt) = p by simp]
    exact Or.inr hq

theorem opt_vleg_mem_last (p : Pt) (d : Int) (q : Pt)
    (hq : q ∈ legsPoints p (if d ≠ 0 then [Action.move 0 d] else [])) :
    q ∈ segPoints p 0 d := by
  by_cases h : d ≠ 0
  · rw [if_pos h] at hq
    rw [show legsPoints p [Action.move 0 d]
        = segPoints p 0 d ++ legsPoints ⟨p.x + 0, p.y + d⟩ [] from rfl] at hq
    simpa [legsPoints] using hq
  · rw [if_neg h] at hq
    exact absurd hq (by simp [legsPoints])

theorem opt_hleg_mem_last (p : Pt) (d : Int) (q : Pt)
    (hq : q ∈ legsPoints p (if d ≠ 0 then [Action.move d 0] else [])) :
    q ∈ segPoints p d 0 := by
  by_cases h : d ≠ 0
  · rw [if_pos h] at hq
    rw [show legsPoints p [Action.move d 0]
        = segPoints p d 0 ++ legsPoints ⟨p.x + d, p.y + 0⟩ [] from rfl] at hq
    simpa [legsPoints] using hq
  · rw [if_neg h] at hq
    exact absurd hq (by simp [legsPoints])

theorem opt_all_moves (c : Prop) [Decidable c] (dx dy : Int) :
    ((if c then [Action.move dx dy] else []).all isMoveB) = true := by
  split <;> rfl

theorem opt_len (c : Prop) [Decidable c] (a : Action) :
    ((if c then [a] else []).length) ≤ 1 := by
  split <;> simp

theorem opt_axis_v (d : Int) :
    ((if d ≠ 0 then [Action.move 0 d] else []).all isAxisMove) = true := by
  by_cases h : d ≠ 0
  · rw [if_pos h]
    simp [isAxisMove, h]
  · rw [if_neg h]
    rfl

theorem opt_axis_h (d : Int) :
    ((if d ≠ 0 then [Action.move d 0] else []).all isAxisMove) = true := by
  by_cases h : d ≠ 0
  · rw [if_pos h]
    simp [isAxisMove, h]
  · rw [if_neg h]
    rfl

theorem hmode_all_moves (c1 c2 : Pt) (dx dy : Int) :
    (plan_horizontal_edge_movement c1 c2 dx dy).all isMoveB = true := by
  dsimp only [plan_horizontal_edge_movement]
  simp only [List.all_append, opt_all_moves, Bool.and_true, Bool.true_and]

theorem vmode_all_moves (c1 c2 : Pt) (dx dy : Int) :
    (plan_vertical_edge_movement c1 c2 dx dy).all isMoveB = true := by
  dsimp only [plan_vertical_edge_movement]
  simp only [List.all_append, opt_all_moves, Bool.and_true, Bool.true_and]

theorem edge_carry_all_moves (c1 c2 : Pt) :
    (plan_edge_movement c1 c2 true).all isMoveB = true := by
  dsimp only [plan_edge_movement]
  rw [if_neg (by simp)]
  split
  · exact hmode_all_moves c1 c2 _ _
  · exact vmode_all_moves c1 c2 _ _

theorem discard_all_moves (c d : Pt) :
    (plan_discard_movement c d).all isMoveB = true := by
  dsimp only [plan_discard_movement]
  simp only [List.all_append, opt_all_moves, Bool.and_true, Bool.true_and]

theorem applyActions_hmode (c1 c2 : Pt) (dx dy : Int)
    (h1y : c1.y % 2 = 0) (h2x : c2.x % 2 = 1) (h2y : c2.y % 2 = 0) :
    applyActions c1 (plan_horizontal_edge_movement c1 c2 dx dy)
      = ⟨c2.x - 1, c2.y - 1⟩ := by
  dsimp only [plan_horizontal_edge_movement]
  split_ifs <;>
    (simp only [applyActions, List.append_assoc, List.nil_append,
      List.append_nil, List.singleton_append, List.foldl_cons, List.foldl_nil,
      List.cons_append, stepPos, Pt.mk.injEq]
     omega)

theorem applyActions_vmode (c1 c2 : Pt) (dx dy : Int)
    (h1x : c1.x % 2 = 1) (h2x : c2.x % 2 = 1) (h2y : c2.y % 2 = 0) :
    applyActions c1 (plan_vertical_edge_movement c1 c2 dx dy)
      = ⟨c2.x - 1, c2.y - 1⟩ := by
  dsimp only [plan_vertical_edge_movement]
  split_ifs <;>
    (simp only [applyActions, List.append_assoc, List.nil_append,
      List.append_nil, List.singleton_append, List.foldl_cons, List.foldl_nil,
      List.cons_append, stepPos, Pt.mk.injEq]
     omega)

theorem applyActions_carry (c1 c2 : Pt)
    (h1x : c1.x % 2 = 1) (h1y : c1.y % 2 = 0)
    (h2x : c2.x % 2 = 1) (h2y : c2.y % 2 = 0) :
    applyActions c1 (plan_edge_movement c1 c2 true) = ⟨c2.x - 1, c2.y - 1⟩ := by
  dsimp only [plan_edge_movement]
  rw [if_neg (by simp)]
  split
  · exact applyActions_hmode c1 c2 _ _ h1y h2x h2y
  · exact applyActions_vmode c1 c2 _ _ h1x h2x h2y

theorem applyActions_discard (c d : Pt) (hy : c.y % 2 = 0) :
    applyActions c (plan_discard_movement c d) = ⟨d.x, 1⟩ := by
  dsimp only [plan_discard_movement]
  split_ifs <;>
    (simp only [applyActions, List.append_assoc, List.nil_append,
      List.append_nil, List.singleton_append, List.foldl_cons, List.foldl_nil,
      List.cons_append, stepPos, Pt.mk.injEq]
     omega)

theorem plan_edge_uncarried (p c : Pt)
    (h : c.x - p.x ≠ 0 ∨ c.y - p.y ≠ 0) :
    plan_edge_movement p c false = [.move (c.x - p.x) (c.y - p.y)] := by
  dsimp only [plan_edge_movement]
  rw [if_pos rfl, if_pos h]

theorem hmode_len (c1 c2 : Pt) (dx dy : Int) :
    (plan_horizontal_edge_movement c1 c2 dx dy).length ≤ 3 := by
  dsimp only [plan_horizontal_edge_movement]
  simp only [List.length_append]
  split_ifs <;> simp

theorem vmode_len (c1 c2 : Pt) (dx dy : Int) :
    (plan_vertical_edge_movement c1 c2 dx dy).length ≤ 3 := by
  dsimp only [plan_vertical_edge_movement]
  simp only [List.length_append]
  split_ifs <;> simp

theorem edge_carry_len (c1 c2 : Pt) :
    (plan_edge_movement c1 c2 true).length ≤ 3 := by
  dsimp only [plan_edge_movement]
  rw [if_neg (by simp)]
  split
  · exact hmode_len c1 c2 _ _
  · exact vmode_len c1 c2 _ _

theorem hmode_points_safe (c1 c2 : Pt) (dx dy : Int)
    (h1x : c1.x % 2 = 1) (h1y : c1.y % 2 = 0)
    (h2x : c2.x % 2 = 1) (h2y : c2.y % 2 = 0) :
    ∀ q ∈ legsPoints c1 (plan_horizontal_edge_movement c1 c2 dx dy),
      q = c1 ∨ isCenterPt q = false := by
  intro q hq
  dsimp only [plan_horizontal_edge_movement] at hq
  rw [if_pos h2x, if_pos h2y] at hq
  by_cases hdy : dy ≥ 0
  · rw [if_pos (⟨h1y, hdy⟩ : c1.y % 2 = 0 ∧ dy ≥ 0),
      if_neg (by omega : ¬((c1.y + 1) % 2 = 0)),
      (by omega : c1.y + 1 - c1.y = 1)] at hq
    rcases opt_vleg_mem c1 1 _ q hq with h1 | hq2
    · exact seg_unit_v_safe c1 1 (Or.inl rfl) h1y q h1
    · rcases opt_hleg_mem ⟨c1.x, c1.y + 1⟩ (c2.x - 1 - c1.x) _ q hq2 with h2 | hq3
      · exact Or.inr (seg_h_safe _ _ (by dsimp only; omega) q h2)
      · exact Or.inr (seg_v_safe _ _ (by dsimp only; omega) q
          (opt_vleg_mem_last _ _ q hq3))
  · rw [if_neg (show ¬(c1.y % 2 = 0 ∧ dy ≥ 0) from fun h => hdy h.2), if_pos h1y,
      if_neg (by omega : ¬((c1.y - 1) % 2 = 0)),
      (by omega : c1.y - 1 - c1.y = -1)] at hq
    rcases opt_vleg_mem c1 (-1) _ q hq with h1 | hq2
    · exact seg_unit_v_safe c1 (-1) (Or.inr rfl) h1y q h1
    · rcases opt_hleg_mem ⟨c1.x, c1.y + -1⟩ (c2.x - 1 - c1.x) _ q hq2 with h2 | hq3
      · exact Or.inr (seg_h_safe _ _ (by dsimp only; omega) q h2)
      · exact Or.inr (seg_v_safe _ _ (by dsimp only; omega) q
          (opt_vleg_mem_last _ _ q hq3))

theorem vmode_points_safe (c1 c2 : Pt) (dx dy : Int)
    (h1x : c1.x % 2 = 1) (h1y : c1.y % 2 = 0)
    (h2x : c2.x % 2 = 1) (h2y : c2.y % 2 = 0) :
    ∀ q ∈ legsPoints c1 (plan_vertical_edge_movement c1 c2 dx dy),
      q = c1 ∨ isCenterPt q = false := by
  intro q hq
  dsimp only [plan_vertical_edge_movement] at hq
  rw [if_pos h2x, if_pos h2y] at hq
  by_cases hdx : dx ≥ 0
  · rw [if_pos (⟨h1x, hdx⟩ : c1.x % 2 = 1 ∧ dx ≥ 0),
      if_neg (by omega : ¬((c1.x + 1) % 2 = 1)),
      (by omega : c1.x + 1 - c1.x = 1)] at hq
    rcases opt_hleg_mem c1 1 _ q hq with h1 | hq2
    · exact seg_unit_h_safe c1 1 (Or.inl rfl) h1x q h1
    · rcases opt_vleg_mem ⟨c1.x + 1, c1.y⟩ (c2.y - 1 - c1.y) _ q hq2 with h2 | hq3
      · exact Or.inr (seg_v_safe _ _ (by dsimp only; omega) q h2)
      · exact Or.inr (seg_h_safe _ _ (by dsimp only; omega) q
          (opt_hleg_mem_last _ _ q hq3))
  · rw [if_neg (show ¬(c1.x % 2 = 1 ∧ dx ≥ 0) from fun h => hdx h.2), if_pos h1x,
      if_neg (by omega : ¬((c1.x - 1) % 2 = 1)),
      (by omega : c1.x - 1 - c1.x = -1)] at hq
    rcases opt_hleg_mem c1 (-1) _ q hq with h1 | hq2
    · exact seg_unit_h_safe c1 (-1) (Or.inr rfl) h1x q h1
    · rcases opt_vleg_mem ⟨c1.x + -1, c1.y⟩ (c2.y - 1 - c1.y) _ q hq2 with h2 | hq3
      · exact Or.inr (seg_v_safe _ _ (by dsimp only; omega) q h2)
      · exact Or.inr (seg_h_safe _ _ (by dsimp only; omega) q
          (opt_hleg_mem_last _ _ q hq3))

theorem trace_lower (p : Pt) (rest : List Action) :
    trace p (.lowerCmd :: rest) = .lowerAt p :: trace p rest := rfl

theorem trace_raise (p : Pt) (rest : List Action) :
    trace p (.raiseCmd :: rest) = .raiseAt p :: trace p rest := rfl

theorem trace_home (p : Pt) (rest : List Action) :
    trace p (.homeCmd :: rest) = .homeEv :: trace get_home_position rest := rfl

theorem trace_uncarried (c1 : Pt) (h : c1.x ≠ 0) (rest : List Action) :
    trace get_home_position
      (plan_edge_movement get_home_position c1 false ++ rest) = trace c1 rest := by
  rw [plan_edge_uncarried get_home_position c1
    (Or.inl (by simp only [get_home_position]; omega))]
  show trace ⟨get_home_position.x + (c1.x - get_home_position.x),
    get_home_position.y + (c1.y - get_home_position.y)⟩ rest = _
  rw [show (⟨get_home_position.x + (c1.x - get_home_position.x),
    get_home_position.y + (c1.y - get_home_position.y)⟩ : Pt) = c1 from by
      simp [get_home_position]]

theorem applyActions_carry_settle (c1 c2 : Pt)
    (h1x : c1.x % 2 = 1) (h1y : c1.y % 2 = 0)
    (h2x : c2.x % 2 = 1) (h2y : c2.y % 2 = 0) :
    applyActions c1 (plan_edge_movement c1 c2 true ++ [Action.move 1 1]) = c2 := by
  rw [applyActions_append, applyActions_carry c1 c2 h1x h1y h2x h2y]
  show (⟨c2.x - 1 + 1, c2.y - 1 + 1⟩ : Pt) = c2
  rw [show c2.x - 1 + 1 = c2.x by omega, show c2.y - 1 + 1 = c2.y by omega]

theorem carry_with_settle_all_moves (c1 c2 : Pt) :
    ((plan_edge_movement c1 c2 true ++ [Action.move 1 1]).all isMoveB) = true := by
  simp only [List.all_append, edge_carry_all_moves, Bool.true_and]
  rfl

theorem trace_cycle (c1 c2 : Pt)
    (h1x : c1.x % 2 = 1) (h1y : c1.y % 2 = 0)
    (h2x : c2.x % 2 = 1) (h2y : c2.y % 2 = 0) (rest : List Action) :
    trace c1 (.raiseCmd :: (plan_edge_movement c1 c2 true
        ++ (.move 1 1 :: .lowerCmd :: rest)))
      = .raiseAt c1 :: .lowerAt c2 :: trace c2 rest := by
  rw [trace_raise]
  rw [show plan_edge_movement c1 c2 true ++ (Action.move 1 1 :: Action.lowerCmd :: rest)
      = (plan_edge_movement c1 c2 true ++ [Action.move 1 1])
          ++ (Action.lowerCmd :: rest) by simp]
  rw [trace_moves_append _ (carry_with_settle_all_moves c1 c2) c1 _,
    applyActions_carry_settle c1 c2 h1x h1y h2x h2y, trace_lower]

theorem carries_none_lower (p : Pt) (rest : List Action) :
    collectCarries p none (.lowerCmd :: rest) = collectCarries p none rest := rfl

theorem carries_none_home (p : Pt) (rest : List Action) :
    collectCarries p none (.homeCmd :: rest)
      = collectCarries get_home_position none rest := rfl

theorem carries_uncarried (c1 : Pt) (h : c1.x ≠ 0) (rest : List Action) :
    collectCarries get_home_position none
      (plan_edge_movement get_home_position c1 false ++ rest)
      = collectCarries c1 none rest := by
  rw [plan_edge_uncarried get_home_position c1
    (Or.inl (by simp only [get_home_position]; omega))]
  show collectCarries ⟨get_home_position.x + (c1.x - get_home_position.x),
    get_home_position.y + (c1.y - get_home_position.y)⟩ none rest = _
  rw [show (⟨get_home_position.x + (c1.x - get_home_position.x),
    get_home_position.y + (c1.y - get_home_position.y)⟩ : Pt) = c1 from by
      simp [get_home_position]]

theorem carries_cycle (c1 c2 : Pt)
    (h1x : c1.x % 2 = 1) (h1y : c1.y % 2 = 0)
    (h2x : c2.x % 2 = 1) (h2y : c2.y % 2 = 0) (rest : List Action) :
    collectCarries c1 none (.raiseCmd :: (plan_edge_movement c1 c2 true
        ++ (.move 1 1 :: .lowerCmd :: rest)))
      = { lift := c1, settle := c2,
          pts := [c1] ++ legsPoints c1
            (plan_edge_movement c1 c2 true ++ [Action.move 1 1]) } ::
        collectCarries c2 none rest := by
  show collectCarries c1 (some (c1, [c1])) (plan_edge_movement c1 c2 true
    ++ (.move 1 1 :: .lowerCmd :: rest)) = _
  rw [show plan_edge_movement c1 c2 true ++ (Action.move 1 1 :: Action.lowerCmd :: rest)
      = (plan_edge_movement c1 c2 true ++ [Action.move 1 1])
          ++ (Action.lowerCmd :: rest) by simp]
  rw [collectCarries_moves_open _ (carry_with_settle_all_moves c1 c2) c1 c1 [c1] _,
    applyActions_carry_settle c1 c2 h1x h1y h2x h2y]
  rfl

theorem carry_mode_points_safe (c1 c2 : Pt)
    (h1x : c1.x % 2 = 1) (h1y : c1.y % 2 = 0)
    (h2x : c2.x % 2 = 1) (h2y : c2.y % 2 = 0) :
    ∀ q ∈ legsPoints c1 (plan_edge_movement c1 c2 true),
      q = c1 ∨ isCenterPt q = false := by
  intro q hq
  dsimp only [plan_edge_movement] at hq
  rw [if_neg (by simp)] at hq
  split at hq
  · exact hmode_points_safe c1 c2 _ _ h1x h1y h2x h2y q hq
  · exact vmode_points_safe c1 c2 _ _ h1x h1y h2x h2y q hq

theorem trace_plainPlan (c1 c2 : Pt)
    (h1x : c1.x % 2 = 1) (h1y : c1.y % 2 = 0)
    (h2x : c2.x % 2 = 1) (h2y : c2.y % 2 = 0) :
    trace get_home_position (plainPlan c1 c2)
      = [.lowerAt get_home_position, .homeEv, .raiseAt c1, .lowerAt c2] := by
  rw [plainPlan, trace_lower, trace_home, trace_uncarried c1 (by omega),
    trace_cycle c1 c2 h1x h1y h2x h2y []]
  rfl

theorem trace_capturePlan (c1 c2 : Pt)
    (h1x : c1.x % 2 = 1) (h1y : c1.y % 2 = 0)
    (h2x : c2.x % 2 = 1) (h2y : c2.y % 2 = 0) :
    trace get_home_position (capturePlan c1 c2)
      = [.lowerAt get_home_position, .homeEv, .raiseAt c2, .lowerAt ⟨1, 0⟩,
         .homeEv, .raiseAt c1, .lowerAt c2] := by
  rw [capturePlan, trace_lower, trace_home, trace_uncarried c2 (by omega),
    trace_raise]
  rw [show plan_discard_movement c2 ⟨1, 0⟩
        ++ (Action.move 0 (-1) :: Action.lowerCmd :: Action.homeCmd ::
          (plan_edge_movement get_home_position c1 false
            ++ (Action.raiseCmd :: (plan_edge_movement c1 c2 true
              ++ [Action.move 1 1, Action.lowerCmd]))))
      = (plan_discard_movement c2 ⟨1, 0⟩ ++ [Action.move 0 (-1)])
          ++ (Action.lowerCmd :: Action.homeCmd ::
            (plan_edge_movement get_home_position c1 false
              ++ (Action.raiseCmd :: (plan_edge_movement c1 c2 true
                ++ [Action.move 1 1, Action.lowerCmd])))) by simp]
  rw [trace_moves_append _ (by
      simp only [List.all_append, discard_all_moves, Bool.true_and]
      rfl) c2 _]
  rw [show applyActions c2 (plan_discard_movement c2 ⟨1, 0⟩ ++ [Action.move 0 (-1)])
      = (⟨1, 0⟩ : Pt) from by
    rw [applyActions_append, applyActions_discard c2 ⟨1, 0⟩ h2y]
    show (⟨(1 : Int) + 0, (1 : Int) + (-1)⟩ : Pt) = ⟨1, 0⟩
    norm_num]
  rw [trace_lower, trace_home, trace_uncarried c1 (by omega),
    trace_cycle c1 c2 h1x h1y h2x h2y []]
  rfl

theorem carries_plainPlan (c1 c2 : Pt)
    (h1x : c1.x % 2 = 1) (h1y : c1.y % 2 = 0)
    (h2x : c2.x % 2 = 1) (h2y : c2.y % 2 = 0) :
    collectCarries get_home_position none (plainPlan c1 c2)
      = [{ lift := c1, settle := c2,
           pts := [c1] ++ legsPoints c1
             (plan_edge_movement c1 c2 true ++ [Action.move 1 1]) }] := by
  rw [plainPlan, carries_none_lower, carries_none_home,
    carries_uncarried c1 (by omega), carries_cycle c1 c2 h1x h1y h2x h2y []]
  rfl

theorem carrySafe_plainPlan (c1 c2 : Pt)
    (h1x : c1.x % 2 = 1) (h1y : c1.y % 2 = 0)
    (h2x : c2.x % 2 = 1) (h2y : c2.y % 2 = 0) :
    carrySafeL (plainPlan c1 c2) = true := by
  rw [carrySafeL, carries_plainPlan c1 c2 h1x h1y h2x h2y]
  simp only [List.all_cons, List.all_nil, Bool.and_true]
  rw [List.all_eq_true]
  intro x hx
  rcases List.mem_append.mp hx with h | h
  · rcases List.mem_singleton.mp h with rfl
    simp
  · rw [legsPoints_append, applyActions_carry c1 c2 h1x h1y h2x h2y] at h
    rcases List.mem_append.mp h with h | h
    · rcases carry_mode_points_safe c1 c2 h1x h1y h2x h2y x h with rfl | hf
      · simp
      · simp [hf]
    · rw [show legsPoints (⟨c2.x - 1, c2.y - 1⟩ : Pt) [Action.move 1 1]
          = segPoints ⟨c2.x - 1, c2.y - 1⟩ 1 1 from by simp [legsPoints],
        segPoints_diag _ 1 1 one_ne_zero one_ne_zero] at h
      rcases List.mem_pair.mp h with rfl | rfl
      · have hnc := not_center_of_x_even (⟨c2.x - 1, c2.y - 1⟩ : Pt)
          (by dsimp only; omega)
        simp [hnc]
      · rw [show (⟨(⟨c2.x - 1, c2.y - 1⟩ : Pt).x + 1,
            (⟨c2.x - 1, c2.y - 1⟩ : Pt).y + 1⟩ : Pt) = c2 from by
          dsimp only
          rw [show c2.x - 1 + 1 = c2.x by omega,
            show c2.y - 1 + 1 = c2.y by omega]]
        simp

theorem plan_path_plain (s1 s2 : String) (c1 c2 : Pt)
    (h1 : chess_to_grid s1 false = some c1)
    (h2 : chess_to_grid s2 false = some c2)
    (hc : is_castling_move s1 s2 = false) (w : Bool) :
    plan_path s1 s2 false w = some (plainPlan c1 c2) := by
  simp only [plan_path, hc, Bool.false_eq_true, if_false, h1, h2, plainPlan,
    List.append_assoc, List.cons_append, List.nil_append, List.singleton_append]

theorem plan_path_capture (s1 s2 : String) (c1 c2 : Pt)
    (h1 : chess_to_grid s1 false = some c1)
    (h2 : chess_to_grid s2 false = some c2)
    (hc : is_castling_move s1 s2 = false) (w : Bool) :
    plan_path s1 s2 true w = some (capturePlan c1 c2) := by
  simp only [plan_path, hc, Bool.false_eq_true, if_false, h1, h2, capturePlan,
    if_true, List.append_assoc, List.cons_append, List.nil_append,
    List.singleton_append]

theorem plan_path_castle (s1 s2 : String) (hc : is_castling_move s1 s2 = true)
    (cap w : Bool) :
    plan_path s1 s2 cap w = plan_castling_path s1 s2 w := by
  simp only [plan_path, hc, if_true]

theorem trace_castle_list (kf kt rf rt : Pt)
    (hkfx : kf.x % 2 = 1) (hkfy : kf.y % 2 = 0)
    (hktx : kt.x % 2 = 1) (hkty : kt.y % 2 = 0)
    (hrfx : rf.x % 2 = 1) (hrfy : rf.y % 2 = 0)
    (hrtx : rt.x % 2 = 1) (hrty : rt.y % 2 = 0) :
    trace get_home_position
      ([.lowerCmd, .homeCmd] ++ plan_edge_movement get_home_position kf false
        ++ [.raiseCmd] ++ plan_edge_movement kf kt true
        ++ [.move 1 1, .lowerCmd, .homeCmd]
        ++ plan_edge_movement get_home_position rf false ++ [.raiseCmd]
        ++ plan_edge_movement rf rt true ++ [.move 1 1, .lowerCmd])
      = [.lowerAt get_home_position, .homeEv, .raiseAt kf, .lowerAt kt,
         .homeEv, .raiseAt rf, .lowerAt rt] := by
  simp only [List.append_assoc, List.cons_append, List.nil_append,
    List.singleton_append]
  rw [trace_lower, trace_home, trace_uncarried kf (by omega),
    trace_cycle kf kt hkfx hkfy hktx hkty, trace_home,
    trace_uncarried rf (by omega), trace_cycle rf rt hrfx hrfy hrtx hrty []]
  rfl

theorem trace_castling (s1 s2 : String) (c1 c2 : Pt)
    (h1 : chess_to_grid s1 false = some c1)
    (h2 : chess_to_grid s2 false = some c2)
    (p1x : c1.x % 2 = 1) (p1y : c1.y % 2 = 0)
    (p2x : c2.x % 2 = 1) (p2y : c2.y % 2 = 0) :
    ∃ r1 r2 : Pt, Option.map (trace get_home_position)
        (plan_castling_path s1 s2 true)
      = some [.lowerAt get_home_position, .homeEv, .raiseAt c1, .lowerAt c2,
              .homeEv, .raiseAt r1, .lowerAt r2] := by
  by_cases hg : s2 = "g1" ∨ s2 = "g8"
  · refine ⟨⟨15, 2⟩, ⟨11, 2⟩, ?_⟩
    dsimp only [plan_castling_path]
    rw [if_pos hg, if_pos hg]
    rw [h1, h2, (by decide : chess_to_grid (if (true = true) then "h1" else "h8") false
        = some (⟨15, 2⟩ : Pt)),
      (by decide : chess_to_grid (if (true = true) then "f1" else "f8") false
        = some (⟨11, 2⟩ : Pt))]
    simp only [Option.map_some']
    rw [trace_castle_list c1 c2 ⟨15, 2⟩ ⟨11, 2⟩ p1x p1y p2x p2y
      (by decide) (by decide) (by decide) (by decide)]
  · refine ⟨⟨1, 2⟩, ⟨7, 2⟩, ?_⟩
    dsimp only [plan_castling_path]
    rw [if_neg hg, if_neg hg]
    rw [h1, h2, (by decide : chess_to_grid (if (true = true) then "a1" else "a8") false
        = some (⟨1, 2⟩ : Pt)),
      (by decide : chess_to_grid (if (true = true) then "d1" else "d8") false
        = some (⟨7, 2⟩ : Pt))]
    simp only [Option.map_some']
    rw [trace_castle_list c1 c2 ⟨1, 2⟩ ⟨7, 2⟩ p1x p1y p2x p2y
      (by decide) (by decide) (by decide) (by decide)]

theorem edge_carry_axis (c1 c2 : Pt) :
    (plan_edge_movement c1 c2 true).all isAxisMove = true := by
  dsimp only [plan_edge_movement]
  rw [if_neg (by simp)]
  split
  · dsimp only [plan_horizontal_edge_movement]
    simp only [List.all_append, opt_axis_v, opt_axis_h, Bool.and_true,
      Bool.true_and]
  · dsimp only [plan_vertical_edge_movement]
    simp only [List.all_append, opt_axis_v, opt_axis_h, Bool.and_true,
      Bool.true_and]

theorem sq_parse : ∀ f r : Fin 8,
    chess_to_grid (sqStr f r) false = some (centerOf f r) := by decide

theorem centerOf_x_odd (f r : Fin 8) : (centerOf f r).x % 2 = 1 := by
  simp only [centerOf]
  omega

theorem centerOf_y_even (f r : Fin 8) : (centerOf f r).y % 2 = 0 := by
  simp only [centerOf]
  omega

theorem is_castling_strings (s1 s2 : String)
    (h : is_castling_move s1 s2 = true) :
    (s1 = "e1" ∧ s2 = "g1") ∨ (s1 = "e1" ∧ s2 = "c1")
      ∨ (s1 = "e8" ∧ s2 = "g8") ∨ (s1 = "e8" ∧ s2 = "c8") := by
  have hm := of_decide_eq_true h
  simpa [List.mem_cons, Prod.ext_iff] using hm

theorem castle_pairs_carry_safe : ∀ w : Bool,
    Option.map carrySafeL (plan_path "e1" "g1" false w) = some true ∧
    Option.map carrySafeL (plan_path "e1" "c1" false w) = some true ∧
    Option.map carrySafeL (plan_path "e8" "g8" false w) = some true ∧
    Option.map carrySafeL (plan_path "e8" "c8" false w) = some true := by
  decide

/-- Claim C1 (amended): in every plain-move or castling choreography the
planner produces, the gripper path while carrying a piece (the
displacement legs between each `raise` and the following `lower`) never
passes through a square-center grid point (x odd, y even with
`2 ≤ y ≤ 16`), except the source center at the lift and the destination
point at the settle.  (The capture sub-sequence violates this; see the
counterexample.) -/
theorem c1_carry_centers_amended : ∀ f1 r1 f2 r2 : Fin 8, ∀ w : Bool,
    Option.map carrySafeL
      (plan_path (sqStr f1 r1) (sqStr f2 r2) false w) = some true := by
  intro f1 r1 f2 r2 w
  by_cases hc : is_castling_move (sqStr f1 r1) (sqStr f2 r2) = true
  · rcases is_castling_strings _ _ hc with ⟨h1, h2⟩ | ⟨h1, h2⟩ | ⟨h1, h2⟩ | ⟨h1, h2⟩ <;>
      rw [h1, h2]
    · exact (castle_pairs_carry_safe w).1
    · exact (castle_pairs_carry_safe w).2.1
    · exact (castle_pairs_carry_safe w).2.2.1
    · exact (castle_pairs_carry_safe w).2.2.2
  · rw [plan_path_plain _ _ _ _ (sq_parse f1 r1) (sq_parse f2 r2)
      (Bool.eq_false_iff.mpr hc) w]
    simp only [Option.map_some']
    exact congrArg some (carrySafe_plainPlan _ _
      (centerOf_x_odd f1 r1) (centerOf_y_even f1 r1)
      (centerOf_x_odd f2 r2) (centerOf_y_even f2 r2))

/-- Claim C1, counterexample: in the capture choreography for a capture
on d5 (planned from e4), the carry of the captured piece from the d5
center to the discard point (1,0) passes through the a-file square
centers (1,8), (1,6), (1,4), (1,2) — center points that are neither the
lift point (7,10) nor the settle point (1,0). -/
theorem c1_capture_crosses_centers :
    Option.map carrySafeL (plan_path "e4" "d5" true true) = some false ∧
    Option.map (fun L => (collectCarries get_home_position none L).map
        (fun c => c.pts.filter
          (fun p => isCenterPt p && !(p == c.lift) && !(p == c.settle))))
      (plan_path "e4" "d5" true true)
      = some [[⟨1, 8⟩, ⟨1, 6⟩, ⟨1, 4⟩, ⟨1, 2⟩], []] := by
  constructor
  · decide
  · decide

/-- Claim C3 (confirmed): for every pair of valid square centers, the
carrying movement plan is a list of at most three relative displacement
commands, each displacing along exactly one axis with zero legs
omitted, and together with the fixed corrective displacement (1,1)
issued before the final lower the legs land exactly on the destination
center. -/
theorem c3_carry_legs : ∀ f1 r1 f2 r2 : Fin 8,
    (plan_edge_movement (centerOf f1 r1) (centerOf f2 r2) true).length ≤ 3 ∧
    (plan_edge_movement (centerOf f1 r1) (centerOf f2 r2) true).all
      isAxisMove = true ∧
    applyActions (centerOf f1 r1)
        (plan_edge_movement (centerOf f1 r1) (centerOf f2 r2) true
          ++ [Action.move 1 1])
      = centerOf f2 r2 :=
  fun f1 r1 f2 r2 =>
    ⟨edge_carry_len _ _, edge_carry_axis _ _,
      applyActions_carry_settle _ _
        (centerOf_x_odd f1 r1) (centerOf_y_even f1 r1)
        (centerOf_x_odd f2 r2) (centerOf_y_even f2 r2)⟩

/-- Claim C4 (amended): for every non-castling capture move, the
choreography relocates the captured piece first — it travels uncarried
to the destination center, raises there, carries the piece to the fixed
hardcoded discard point (1,0) (the planner never invokes the
discard-slot allocator), lowers and returns home — all strictly before
the raise that lifts the capturing piece at the source center, after
which the capturing piece is lowered on the destination center. -/
theorem c4_capture_order_amended : ∀ f1 r1 f2 r2 : Fin 8, ∀ w : Bool,
    is_castling_move (sqStr f1 r1) (sqStr f2 r2) = false →
    Option.map (trace get_home_position)
        (plan_path (sqStr f1 r1) (sqStr f2 r2) true w)
      = some [.lowerAt get_home_position, .homeEv,
              .raiseAt (centerOf f2 r2), .lowerAt ⟨1, 0⟩, .homeEv,
              .raiseAt (centerOf f1 r1), .lowerAt (centerOf f2 r2)] := by
  intro f1 r1 f2 r2 w hc
  rw [plan_path_capture _ _ _ _ (sq_parse f1 r1) (sq_parse f2 r2) hc w]
  simp only [Option.map_some']
  exact congrArg some (trace_capturePlan _ _
    (centerOf_x_odd f1 r1) (centerOf_y_even f1 r1)
    (centerOf_x_odd f2 r2) (centerOf_y_even f2 r2))

theorem c4_capture_order_amended_witness :
    is_castling_move (sqStr 4 1) (sqStr 3 2) = false ∧
    Option.map (trace get_home_position)
        (plan_path (sqStr 4 1) (sqStr 3 2) true true)
      = some [.lowerAt get_home_position, .homeEv,
              .raiseAt (centerOf 3 2), .lowerAt ⟨1, 0⟩, .homeEv,
              .raiseAt (centerOf 4 1), .lowerAt (centerOf 3 2)] :=
  ⟨by decide, c4_capture_order_amended 4 1 3 2 true (by decide)⟩

/-- Claim C4, counterexample: the capture choreography for e4 takes d5
lowers the captured piece at the hardcoded point (1,0), whereas the
discard-slot allocator, called for a white capture on an empty pile,
returns (1,18) (the top discard lane): the planner does not use the
allocator at all. -/
theorem c4_discard_not_allocated :
    Option.map (trace get_home_position) (plan_path "e4" "d5" true true)
      = some [.lowerAt get_home_position, .homeEv, .raiseAt ⟨7, 10⟩,
              .lowerAt ⟨1, 0⟩, .homeEv, .raiseAt ⟨9, 8⟩, .lowerAt ⟨7, 10⟩] ∧
    (get_next_discard_position true ⟨[], []⟩).1 = ⟨1, 18⟩ ∧
    (⟨1, 0⟩ : Pt) ≠ (⟨1, 18⟩ : Pt) := by
  refine ⟨by decide, by decide, by decide⟩

/-- Claim C2 (confirmed): `grid_to_chess` inverts `chess_to_grid` on
the 64 square centers, and `chess_to_grid` inverts `grid_to_chess` on
every grid point of center parity (x odd in [1,15], y even in
[2,16]). -/
theorem c2_roundtrip :
    (∀ f r : Fin 8,
      (chess_to_grid (sqStr f r) false).bind (fun p => grid_to_chess p.x p.y)
        = some (sqStr f r)) ∧
    (∀ i j : Fin 8,
      (grid_to_chess (2 * (i : Int) + 1) (2 * (j : Int) + 2)).bind
          (fun s => chess_to_grid s false)
        = some ⟨2 * (i : Int) + 1, 2 * (j : Int) + 2⟩) := by
  constructor
  · decide
  · decide

/-- Claim C5 (confirmed): starting from an empty discard pile, the
first eight successive white-capture allocations return the strictly
increasing x-coordinates 1, 3, ..., 15 (pairwise distinct), and the
ninth call — the lane being exhausted — wraps back to x = 1. -/
theorem c5_discard_monotonic :
    (∀ k : Fin 8, discard_x_at k = 2 * (k : Int) + 1) ∧
    discard_x_at 8 = 1 ∧
    (∀ i j : Fin 8, i = j ∨ discard_x_at i ≠ discard_x_at j) := by
  refine ⟨by decide, by decide, by decide⟩

/-- Claim C6 (confirmed): planning e1 to g1 as a white move produces
the castling choreography regardless of the capture flag: two
independent raise/lower cycles — the king e1 (center (9,2)) to g1
(center (13,2)), then the rook h1 (center (15,2)) to f1 (center
(11,2)) — separated by a `home`, with no discard or capture step (the
only lower events are at the two destination centers). -/
theorem c6_castling_plan : ∀ cap : Bool,
    plan_path "e1" "g1" cap true = some
      [.lowerCmd, .homeCmd, .move 9 2, .raiseCmd, .move 0 1, .move 3 0,
       .move 0 (-2), .move 1 1, .lowerCmd, .homeCmd, .move 15 2, .raiseCmd,
       .move 0 1, .move (-5) 0, .move 0 (-2), .move 1 1, .lowerCmd] ∧
    Option.map (trace get_home_position) (plan_path "e1" "g1" cap true)
      = some [.lowerAt ⟨0, 0⟩, .homeEv, .raiseAt ⟨9, 2⟩, .lowerAt ⟨13, 2⟩,
              .homeEv, .raiseAt ⟨15, 2⟩, .lowerAt ⟨11, 2⟩] := by
  decide

/-- Claim C10 (amended): `grid_to_chess` succeeds on exactly the
in-range grid points with `1 ≤ x`, `2 ≤ y ≤ 17` — it never validates
center parity, so in-range channel-parity points also decode to a
square rather than failing. -/
theorem c10_grid_to_chess_amended : ∀ x : Fin 17, ∀ y : Fin 19,
    ((grid_to_chess (x.val : Int) (y.val : Int)).isSome = true
      ↔ (1 ≤ x.val ∧ 2 ≤ y.val ∧ y.val ≤ 17)) := by
  decide

/-- Claim C10, counterexample: the point (2,3) has channel parity
(x even, y odd) and is not a square center — the center of a1 is
(1,2) — yet `grid_to_chess` returns "a1" for it instead of failing. -/
theorem c10_channel_point_decodes :
    grid_to_chess 2 3 = some "a1" ∧
    chess_to_grid "a1" false = some ⟨1, 2⟩ ∧
    (⟨2, 3⟩ : Pt) ≠ (⟨1, 2⟩ : Pt) := by
  refine ⟨by decide, by decide, by decide⟩

theorem exec_plan_castle_iff (f1 r1 f2 r2 : Fin 8) (cap : Bool) :
    plan_path (sqStr f1 r1) (sqStr f2 r2) cap true
        = plan_castling_path (sqStr f1 r1) (sqStr f2 r2) true
      ↔ is_castling_move (sqStr f1 r1) (sqStr f2 r2) = true := by
  constructor
  · intro heq
    by_contra hc
    have hcf : is_castling_move (sqStr f1 r1) (sqStr f2 r2) = false :=
      Bool.eq_false_iff.mpr hc
    obtain ⟨q1, q2, htr⟩ := trace_castling _ _ _ _
      (sq_parse f1 r1) (sq_parse f2 r2)
      (centerOf_x_odd f1 r1) (centerOf_y_even f1 r1)
      (centerOf_x_odd f2 r2) (centerOf_y_even f2 r2)
    rw [← heq] at htr
    cases cap with
    | false =>
      rw [plan_path_plain _ _ _ _ (sq_parse f1 r1) (sq_parse f2 r2) hcf true]
        at htr
      simp only [Option.map_some'] at htr
      rw [trace_plainPlan _ _
        (centerOf_x_odd f1 r1) (centerOf_y_even f1 r1)
        (centerOf_x_odd f2 r2) (centerOf_y_even f2 r2)] at htr
      simp only [Option.some.injEq] at htr
      have hlen := congrArg List.length htr
      simp at hlen
    | true =>
      rw [plan_path_capture _ _ _ _ (sq_parse f1 r1) (sq_parse f2 r2) hcf true]
        at htr
      simp only [Option.map_some'] at htr
      rw [trace_capturePlan _ _
        (centerOf_x_odd f1 r1) (centerOf_y_even f1 r1)
        (centerOf_x_odd f2 r2) (centerOf_y_even f2 r2)] at htr
      simp only [Option.some.injEq, List.cons.injEq] at htr
      have h3 := htr.2.2.2.1
      injection h3 with h3p
      have hy := congrArg Pt.y h3p
      simp [centerOf] at hy
      omega
  · intro hc
    exact plan_path_castle _ _ hc cap true

/-- Claim C7 (amended): the explicit castling flag passed to the
executor is accepted but ignored — planning is identical for flag true
and flag false — and a move is planned as the castling choreography
exactly when the (from,to) pair is one of the four fixed king pairs
e1g1, e1c1, e8g8, e8c8. -/
theorem c7_castling_detection_amended : ∀ f1 r1 f2 r2 : Fin 8,
    ∀ cap flag : Bool,
    exec_plan (sqStr f1 r1) (sqStr f2 r2) cap flag
        = exec_plan (sqStr f1 r1) (sqStr f2 r2) cap false ∧
    (exec_plan (sqStr f1 r1) (sqStr f2 r2) cap flag
        = plan_castling_path (sqStr f1 r1) (sqStr f2 r2) true
      ↔ is_castling_move (sqStr f1 r1) (sqStr f2 r2) = true) :=
  fun f1 r1 f2 r2 cap _flag => ⟨rfl, exec_plan_castle_iff f1 r1 f2 r2 cap⟩

/-- Claim C7, counterexample: passing the explicit castling flag as
true for the non-king-pair move e2 to e4 does not produce a castling
choreography — the executor plans exactly the same single-raise plain
move as with the flag false, and not the two-raise castling
choreography. -/
theorem c7_flag_ignored :
    exec_plan "e2" "e4" false true = exec_plan "e2" "e4" false false ∧
    Option.map countRaise (exec_plan "e2" "e4" false true) = some 1 ∧
    Option.map countRaise (plan_castling_path "e2" "e4" true) = some 2 ∧
    exec_plan "e2" "e4" false true ≠ plan_castling_path "e2" "e4" true := by
  refine ⟨rfl, by decide, by decide, by decide⟩

theorem err_not_done (m : List Char) (h : leadsWith errorMark m = true) :
    leadsWith doneMark m = false := by
  cases m with
  | nil => exact absurd h (by decide)
  | cons a t =>
    have h1 : decide ('E' = a) = true := by
      have h2 := h
      simp only [errorMark, leadsWith, Bool.and_eq_true] at h2
      exact h2.1
    have ha : 'E' = a := of_decide_eq_true h1
    have hDE : decide ('D' = a) = false := by
      rw [← ha]
      decide
    simp only [doneMark, leadsWith, hDE, Bool.false_and]

/-- Claim C8 (confirmed): over a live connection, if the controller's
first acknowledgement line for the first action begins with "Error",
the dispatcher returns failure and transmits only that first action —
none of the remaining actions of the choreography are sent. -/
theorem c8_error_aborts (l : String) (ls : List String)
    (rs : List (List String)) (c : String) (cs : List String)
    (h : leadsWith errorMark l.data = true) :
    executeMove (some ((l :: ls) :: rs)) (c :: cs) = some (false, [c]) := by
  have hd : leadsWith doneMark l.data = false := err_not_done l.data h
  simp [executeMove, runLive, scanAcks, hd, h]

theorem c8_error_aborts_witness :
    leadsWith errorMark ("Error: limit reached".data) = true ∧
    executeMove (some [["Error: limit reached"]]) ["raise", "lower"]
      = some (false, ["raise"]) :=
  ⟨by decide,
    c8_error_aborts "Error: limit reached" [] [] "raise" ["lower"] (by decide)⟩

theorem simRun_true (cmds : List String) : simRun cmds = true := by
  induction cmds with
  | nil => rfl
  | cons c cs ih => simpa [simRun] using ih

/-- Claim C9 (confirmed): with no serial connection established
(simulation mode), executing any choreography the planner produces
always succeeds: the command loop reports success having transmitted
nothing. -/
theorem c9_simulation_success : ∀ (s1 s2 : String) (cap w : Bool)
    (L : List Action), plan_path s1 s2 cap w = some L →
    executeMove none (L.map encodeAction) = some (true, []) := by
  intro s1 s2 cap w L _h
  simp [executeMove, simRun_true]

theorem c9_simulation_success_witness :
    plan_path "e2" "e4" false true = some e2e4Plan ∧
    executeMove none (e2e4Plan.map encodeAction) = some (true, []) :=
  ⟨by decide, c9_simulation_success "e2" "e4" false true e2e4Plan (by decide)⟩

end ChessMate
